import Mathlib

/-!
Verification of the specification of the `imc-25-ooni-project` backend, a
proxy that fetches censorship measurements from the OONI REST API
(`src/backend/ooni_client.py`, facade `src/backend/main.py`) and network
performance measurements from the M-Lab BigQuery dataset
(`src/backend/mlab_client.py`).

The shallow embedding below mirrors the Python sources.  External effects
(the HTTP transport, the BigQuery engine, the clock, the filesystem) are
passed in as explicit parameters, so each claim is quantified over their
possible outcomes.  Conventions:

* Python dictionaries that flow through the code are modelled as ordered
  key/value lists (`Dict` below); JSON rows from BigQuery and the OONI
  country records both use this shape, so their key sets can be compared.
* Python string truthiness (`if s:` on an `Optional[str]`) is modelled by
  `none` or the empty string being falsy.
* `str.upper()` is modelled as a character-wise `Char.toUpper` map, which
  agrees with Python on the ASCII text these queries are built from.
* Python's unbounded `int` is `Int`; its decimal rendering in f-strings is
  `toString`.  Float parameters that are only ever interpolated into query
  text (the speed bounds) are modelled by their rendered text.
* `datetime.now()` is a `today : Nat` day index plus an abstract calendar
  rendering `renderDate : Nat → String`, so "yesterday" is
  `renderDate (today - 1)`.
-/

set_option maxRecDepth 100000

namespace OoniProject

/-- A Python dict as an ordered association list of string keys and values. -/
abbrev Dict := List (String × String)

/-! ### Substring machinery

`countOcc pat s` counts the positions of `s` (including the final empty
suffix) at which `pat` occurs; `containsSub pat s` is Python's
`pat in s` substring test. -/

/-- Number of occurrences of `pat` in `s`, counted at every start position. -/
def countOcc (pat : List Char) : List Char → Nat
  | [] => if pat.isPrefixOf ([] : List Char) then 1 else 0
  | c :: s => (if pat.isPrefixOf (c :: s) then 1 else 0) + countOcc pat s

/-- Python's substring containment `pat in s`. -/
def containsSub (pat : List Char) : List Char → Bool
  | [] => pat.isPrefixOf ([] : List Char)
  | c :: s => pat.isPrefixOf (c :: s) || containsSub pat s

/-- Character-wise upper-casing, the model of Python `str.upper()`. -/
def upperL (s : List Char) : List Char := s.map Char.toUpper

/-- String-level upper-casing (used where the source calls `.upper()`). -/
def upperStr (s : String) : String := ⟨upperL s.data⟩

/-- The token the M-Lab client checks for before appending a limit clause. -/
def limitTok : List Char := "LIMIT".data

/-! ### OONI client (`src/backend/ooni_client.py`) -/

/-- Optional query parameter added only when truthy
(`if test_name: params["test_name"] = test_name`, lines 62-69). -/
def optParam (key : String) (v : Option String) : List (String × String) :=
  match v with
  | some s => if s.isEmpty then [] else [(key, s)]
  | none => []

/-- The query parameters `OONIClient.get_measurements` sends upstream
(lines 57-69): limit is `min(limit, 1000)`, offset is passed through, and
each optional filter is added only if truthy. -/
def get_measurements_params (test_name probe_cc since until_ : Option String)
    (limit offset : Int) : List (String × String) :=
  [("limit", toString (min limit 1000)), ("offset", toString offset)]
    ++ optParam "test_name" test_name
    ++ optParam "probe_cc" probe_cc
    ++ optParam "since" since
    ++ optParam "until" until_

/-- Failure modes of the HTTP transport seen by `get_measurements`. -/
inductive HttpFailure where
  | statusError (code : Nat) (text : String)
  | requestError (msg : String)

/-- `OONIClient.get_measurements` (lines 34-81): build the params, issue one
GET (the transport is the `fetch` parameter), wrap failures. -/
def get_measurements (fetch : List (String × String) → Except HttpFailure Dict)
    (test_name probe_cc since until_ : Option String)
    (limit offset : Int) : Except String Dict :=
  match fetch (get_measurements_params test_name probe_cc since until_ limit offset) with
  | .ok body => .ok body
  | .error (.statusError c t) => .error ("HTTP error: " ++ toString c ++ " - " ++ t)
  | .error (.requestError m) => .error ("Request error: " ++ m)

/-- The hardcoded test catalog of `get_test_names` (lines 91-107). -/
def common_tests : List String :=
  ["web_connectivity", "http_requests", "dns_consistency",
   "http_invalid_request_line", "bridge_reachability", "tcp_connect",
   "http_header_field_manipulation", "http_host",
   "multi_protocol_traceroute", "meek_fronted_requests_test", "whatsapp",
   "facebook_messenger", "telegram", "vanilla_tor", "stunreachability"]

/-- `OONIClient.get_test_names` (lines 83-119): one probe request is made
(its outcome is the parameter) and the hardcoded catalog is returned on both
the success and the failure branch. -/
def get_test_names (probeResult : Except String Unit) : List String :=
  match probeResult with
  | .ok _ => common_tests
  | .error _ => common_tests

/-- The hardcoded fallback country list of `get_countries` (lines 131-142). -/
def common_countries : List Dict :=
  [[("code", "US"), ("name", "United States")],
   [("code", "GB"), ("name", "United Kingdom")],
   [("code", "DE"), ("name", "Germany")],
   [("code", "FR"), ("name", "France")],
   [("code", "CN"), ("name", "China")],
   [("code", "RU"), ("name", "Russia")],
   [("code", "IR"), ("name", "Iran")],
   [("code", "IN"), ("name", "India")],
   [("code", "BR"), ("name", "Brazil")],
   [("code", "JP"), ("name", "Japan")]]

/-- The parsed JSON body of the measurements response as `get_countries`
reads it: whether the `"results"` key is present, and for each measurement
its `"probe_cc"` field if present. -/
structure OoniMeasurementsBody where
  results? : Option (List (Option String))

/-- The `for measurement in data["results"]` loop of `get_countries`
(lines 155-158): collect the distinct `probe_cc` values into a set. -/
def collect_probe_cc (results : List (Option String)) : Finset String :=
  results.foldl
    (fun s m => match m with
      | some cc => insert cc s
      | none => s) ∅

/-- `OONIClient.get_countries` (lines 121-167): on a successful fetch with a
`"results"` key, return the sorted distinct `probe_cc` values as
`{code, name=code}` records truncated to 50; in every other case (exception
raised, or no `"results"` key) return the hardcoded fallback. -/
def get_countries (fetch : Except String OoniMeasurementsBody) : List Dict :=
  match fetch with
  | .ok data =>
    match data.results? with
    | some results =>
      (((collect_probe_cc results).sort (· ≤ ·)).map
        (fun cc => [("code", cc), ("name", cc)])).take 50
    | none => common_countries
  | .error _ => common_countries

/-! ### HTTP facade (`src/backend/main.py`) -/

/-- A raw query parameter as the framework receives it: absent, present but
not an integer, or an integer value. -/
inductive QueryParam where
  | absent
  | invalid
  | value (n : Int)

/-- Modelled from the framework contract declared in the source: the route
declares `limit: int = Query(100, ge=1, le=1000)` (main.py line 58), and
FastAPI substitutes the default when the parameter is absent and rejects a
non-integer or out-of-range value with a 422 client error before the handler
body runs. -/
def validateLimit : QueryParam → Option Int
  | .absent => some 100
  | .invalid => none
  | .value n => if 1 ≤ n ∧ n ≤ 1000 then some n else none

/-- Modelled from the framework contract declared in the source:
`offset: int = Query(0, ge=0)` (main.py line 59). -/
def validateOffset : QueryParam → Option Int
  | .absent => some 0
  | .invalid => none
  | .value n => if 0 ≤ n then some n else none

/-- Responses the measurements route can produce. -/
inductive RouteResponse where
  | success (body : Dict)
  | clientError (status : Nat)
  | serverError (status : Nat) (detail : String)
deriving DecidableEq

/-- The `GET /api/v1/measurements` handler (main.py lines 52-86) together
with the framework validation layer: validate `limit` and `offset`, then
call `ooni_client.get_measurements` (the `client_call` parameter), mapping a
raised error onto a 500.  The second component counts how many times the
client was invoked. -/
def measurements_route (client_call : Int → Int → Except String Dict)
    (limit offset : QueryParam) : RouteResponse × Nat :=
  match validateLimit limit, validateOffset offset with
  | some l, some o =>
    (match client_call l o with
     | .ok body => (.success body, 1)
     | .error e => (.serverError 500 ("Error fetching measurements: " ++ e), 1))
  | _, _ => (.clientError 422, 0)

/-- Validity of the raw `limit` parameter as the spec states it: an integer
in `[1,1000]`, or absent (the default applies). -/
def limitValid : QueryParam → Prop
  | .absent => True
  | .invalid => False
  | .value n => 1 ≤ n ∧ n ≤ 1000

/-- Validity of the raw `offset` parameter: a non-negative integer, or
absent. -/
def offsetValid : QueryParam → Prop
  | .absent => True
  | .invalid => False
  | .value n => 0 ≤ n

instance : DecidablePred limitValid := by
  intro p
  cases p <;> simp [limitValid] <;> infer_instance

instance : DecidablePred offsetValid := by
  intro p
  cases p <;> simp [offsetValid] <;> infer_instance

/-! ### M-Lab client (`src/backend/mlab_client.py`) -/

/-- Python's `a or b` on optional strings: `a` unless it is `None` or
empty. -/
def pyOr (a b : Option String) : Option String :=
  match a with
  | some s => if s.isEmpty then b else some s
  | none => b

/-- The external construction environment of `MLabClient.__init__`: the two
environment variables, the filesystem check, and the three BigQuery client
constructors with their outcomes (a raised exception is `.error`).  The
constructed client is represented by an opaque label string. -/
structure MLabEnv where
  envProject : Option String
  envCredentials : Option String
  pathExists : String → Bool
  fromServiceAccountJson : String → Option String → Except String String
  clientWithProject : Option String → Except String String
  clientBare : Except String String

/-- The body of the `try` in `MLabClient.__init__` (lines 26-35): use the
service-account key file when the credentials path is truthy and the file
exists, otherwise construct with default credentials. -/
def mlabPrimary (env : MLabEnv) (pid cpath : Option String) : Except String String :=
  match cpath with
  | some p => if !p.isEmpty && env.pathExists p then
      env.fromServiceAccountJson p pid
    else
      env.clientWithProject pid
  | none => env.clientWithProject pid

/-- `MLabClient.__init__` (lines 14-38): resolve project id and credentials
path against the environment, attempt the primary construction, and on any
exception fall back to a bare `bigquery.Client()` — whose own failure is not
caught and so propagates out of `__init__`. -/
def mlabInit (env : MLabEnv) (project_id credentials_path : Option String) :
    Except String String :=
  let pid := pyOr project_id env.envProject
  let cpath := pyOr credentials_path env.envCredentials
  match mlabPrimary env pid cpath with
  | .ok c => .ok c
  | .error _ => env.clientBare

/-- The limit-appending step of `MLabClient._execute_query` (lines 52-54):
`if "LIMIT" not in query.upper(): query = f"{query} LIMIT {limit}"`. -/
def addLimitClause (query : String) (limit : Int) : String :=
  if containsSub limitTok (upperL query.data) then query
  else query ++ " LIMIT " ++ toString limit

/-- `MLabClient._execute_query` (lines 40-68): append the limit clause if
absent, submit the query text to the warehouse (the `run` parameter, which
also models the row-to-dict conversion), and wrap any raised error. -/
def execute_query (run : String → Except String (List Dict))
    (query : String) (limit : Int) : Except String (List Dict) :=
  match run (addLimitClause query limit) with
  | .ok rows => .ok rows
  | .error e => .error ("Query execution error: " ++ e)

/-- The fixed projection-and-range part of the NDT query, up to the opening
quote of the interpolated start date (lines 101-122). -/
def ndtSkeleton0 : String := "
        SELECT
            test_id,
            DATE(test_date) as test_date,
            client.Geo.CountryCode as country_code,
            client.Geo.CountryName as country_name,
            client.Geo.Region as region,
            server.Geo.CountryCode as server_country_code,
            download_speed_mbps,
            upload_speed_mbps,
            download_speed_mbps IS NOT NULL as has_download,
            upload_speed_mbps IS NOT NULL as has_upload,
            MINRTT,
            MeanRTT,
            server.Machine AS server_machine,
            client.IP AS client_ip,
            web100_log_entry.snap.Duration
        FROM
            `measurement-lab.ndt.unified_downloads`
        WHERE
            DATE(test_date) BETWEEN DATE('"

/-- The text between the two interpolated dates of the NDT query. -/
def ndtSkeleton1 : String := "') AND DATE('"

/-- The text after the interpolated end date of the NDT query. -/
def ndtSkeleton2 : String := "')\n        "

/-- The country filter prefix (line 126), up to the opening quote of the
upper-cased country code. -/
def countrySqlPre : String := " AND client.Geo.CountryCode = '"

/-- The minimum download speed filter prefix (line 129). -/
def minSpeedPre : String := " AND download_speed_mbps >= "

/-- The maximum download speed filter prefix (line 132). -/
def maxSpeedPre : String := " AND download_speed_mbps <= "

/-- The ordering clause appended last (line 134). -/
def orderBySql : String := " ORDER BY test_date DESC"

/-- The date-filtered skeleton of the NDT query: the `"""..."""` literal of
lines 101-122 with the two dates substituted by `.format`. -/
def ndtDateSection (start_date end_date : String) : String :=
  ndtSkeleton0 ++ start_date ++ ndtSkeleton1 ++ end_date ++ ndtSkeleton2

/-- The country filter appended when the country code is truthy (lines
125-126), empty otherwise; the code is upper-cased by the source. -/
def countryChunk (country_code : Option String) : String :=
  match country_code with
  | some cc => if cc.isEmpty then "" else countrySqlPre ++ upperStr cc ++ "'"
  | none => ""

/-- The minimum speed filter appended when the bound is given (lines
128-129), empty otherwise. -/
def minSpeedChunk (min_download_speed : Option String) : String :=
  match min_download_speed with
  | some v => minSpeedPre ++ v
  | none => ""

/-- The maximum speed filter appended when the bound is given (lines
131-132), empty otherwise. -/
def maxSpeedChunk (max_download_speed : Option String) : String :=
  match max_download_speed with
  | some v => maxSpeedPre ++ v
  | none => ""

/-- The query text `get_ndt_measurements` assembles (lines 100-134) from the
resolved dates, the optional country code (upper-cased when truthy) and the
optional rendered speed bounds: each conditional `query += ...` of the
source appends its chunk (empty when the condition is false). -/
def ndtQueryBase (start_date end_date : String) (country_code : Option String)
    (min_download_speed max_download_speed : Option String) : String :=
  ndtDateSection start_date end_date ++ countryChunk country_code
    ++ minSpeedChunk min_download_speed ++ maxSpeedChunk max_download_speed
    ++ orderBySql

/-- The date-defaulting step duplicated verbatim at lines 93-98
(`get_ndt_measurements`) and 205-209 (`get_statistics`): a falsy start date
becomes yesterday, a falsy end date becomes the resolved start date. -/
def resolveDates (yesterday : String) (start_date end_date : Option String) :
    String × String :=
  let s := match start_date with
    | some d => if d.isEmpty then yesterday else d
    | none => yesterday
  let e := match end_date with
    | some d => if d.isEmpty then s else d
    | none => s
  (s, e)

/-- The value `get_ndt_measurements` returns on success (lines 139-147). -/
structure NdtResult where
  dataset : String
  count : Nat
  date_range : String × String
  results : List Dict
deriving DecidableEq

/-- `MLabClient.get_ndt_measurements` (lines 70-149): default the dates,
build the query, execute it, and wrap the rows with their metadata. -/
def get_ndt_measurements (run : String → Except String (List Dict))
    (today : Nat) (renderDate : Nat → String)
    (start_date end_date country_code : Option String)
    (min_download_speed max_download_speed : Option String)
    (limit : Int) : Except String NdtResult :=
  let r := resolveDates (renderDate (today - 1)) start_date end_date
  let query := ndtQueryBase r.1 r.2 country_code min_download_speed max_download_speed
  match execute_query run query limit with
  | .ok rows => .ok { dataset := "ndt.unified_downloads", count := rows.length,
                      date_range := r, results := rows }
  | .error msg => .error ("Error fetching NDT measurements: " ++ msg)

/-- The country discovery query of `get_available_countries` up to the
opening quote of the interpolated date (lines 164-171). -/
def countriesSkeleton0 : String := "
        SELECT DISTINCT
            client.Geo.CountryCode as country_code,
            client.Geo.CountryName as country_name
        FROM
            `measurement-lab.ndt.unified_downloads`
        WHERE
            DATE(test_date) = DATE('"

/-- The country discovery query between the date and the limit (171-174). -/
def countriesSkeleton1 : String := "')
            AND client.Geo.CountryCode IS NOT NULL
        ORDER BY country_code
        LIMIT "

/-- The tail of the country discovery query after the limit (175). -/
def countriesSkeleton2 : String := "\n        "

/-- The query text of `get_available_countries` (an f-string, lines
164-175). -/
def countriesQuery (yesterday : String) (limit : Int) : String :=
  countriesSkeleton0 ++ yesterday ++ countriesSkeleton1 ++ toString limit
    ++ countriesSkeleton2

/-- The static fallback list of `get_available_countries` (lines 182-186). -/
def mlab_fallback_countries : List Dict :=
  [[("country_code", "US"), ("country_name", "United States")],
   [("country_code", "GB"), ("country_name", "United Kingdom")],
   [("country_code", "DE"), ("country_name", "Germany")]]

/-- `MLabClient.get_available_countries` (lines 151-186): query yesterday's
distinct country codes, and on any failure return the static fallback. -/
def get_available_countries (run : String → Except String (List Dict))
    (today : Nat) (renderDate : Nat → String) (limit : Int) : List Dict :=
  let yesterday := renderDate (today - 1)
  match execute_query run (countriesQuery yesterday limit) limit with
  | .ok rows => rows
  | .error _ => mlab_fallback_countries

/-- The aggregation query of `get_statistics` up to the opening quote of the
interpolated start date (lines 211-224). -/
def statsSkeleton0 : String := "
        SELECT
            COUNT(*) as total_tests,
            COUNTIF(download_speed_mbps IS NOT NULL) as tests_with_download,
            COUNTIF(upload_speed_mbps IS NOT NULL) as tests_with_upload,
            AVG(download_speed_mbps) as avg_download_mbps,
            AVG(upload_speed_mbps) as avg_upload_mbps,
            MIN(download_speed_mbps) as min_download_mbps,
            MAX(download_speed_mbps) as max_download_mbps,
            APPROX_QUANTILES(download_speed_mbps, 100)[OFFSET(50)] as median_download_mbps
        FROM
            `measurement-lab.ndt.unified_downloads`
        WHERE
            DATE(test_date) BETWEEN DATE('"

/-- The statistics query between the two interpolated dates. -/
def statsSkeleton1 : String := "') AND DATE('"

/-- The statistics query after the interpolated end date (line 225). -/
def statsSkeleton2 : String := "')\n        "

/-- The query text `get_statistics` assembles (lines 211-228); the optional
country filter is the same `query += ...` as in the NDT query (line 228). -/
def statsQueryBase (start_date end_date : String)
    (country_code : Option String) : String :=
  statsSkeleton0 ++ start_date ++ statsSkeleton1 ++ end_date ++ statsSkeleton2
    ++ countryChunk country_code

/-- `MLabClient.get_statistics` (lines 188-236): default the dates, run the
aggregation with limit 1, return the first row or an empty mapping. -/
def get_statistics (run : String → Except String (List Dict))
    (today : Nat) (renderDate : Nat → String)
    (start_date end_date country_code : Option String) : Except String Dict :=
  let r := resolveDates (renderDate (today - 1)) start_date end_date
  let query := statsQueryBase r.1 r.2 country_code
  match execute_query run query 1 with
  | .ok rows => .ok (rows.headD [])
  | .error msg => .error ("Error fetching statistics: " ++ msg)

/-! ### Lemmas about occurrence counting

`countOcc` distributes over an append when no occurrence of the pattern can
straddle the boundary; the two sufficient conditions used below are a
boundary character (on either side) that cannot continue the pattern. -/

theorem countOcc_nil_of_ne (pat : List Char) (h : pat ≠ []) : countOcc pat [] = 0 := by
  cases pat with
  | nil => simp at h
  | cons c p => simp [countOcc, List.isPrefixOf]

theorem containsSub_eq_false_iff (pat s : List Char) :
    containsSub pat s = false ↔ countOcc pat s = 0 := by
  induction s with
  | nil =>
    by_cases hp : pat.isPrefixOf ([] : List Char) = true <;>
      simp [containsSub, countOcc, hp]
  | cons c s ih =>
    by_cases hp : pat.isPrefixOf (c :: s) = true <;>
      simp [containsSub, countOcc, hp, ih]

theorem countOcc_append (pat : List Char) (hpat : pat ≠ []) (a b : List Char)
    (hsplit : ∀ i, i < a.length →
      pat.isPrefixOf (a.drop i ++ b) = pat.isPrefixOf (a.drop i)) :
    countOcc pat (a ++ b) = countOcc pat a + countOcc pat b := by
  induction a with
  | nil => simp [countOcc_nil_of_ne pat hpat]
  | cons c a ih =>
    have h0 : pat.isPrefixOf (c :: a ++ b) = pat.isPrefixOf (c :: a) := by
      simpa using hsplit 0 (by simp)
    have ih' := ih (fun i hi => by
      simpa [List.drop_succ_cons] using hsplit (i + 1) (by simpa using hi))
    rw [List.cons_append]
    show (if pat.isPrefixOf (c :: (a ++ b)) = true then 1 else 0) + countOcc pat (a ++ b)
        = ((if pat.isPrefixOf (c :: a) = true then 1 else 0) + countOcc pat a) + countOcc pat b
    rw [List.cons_append] at h0
    simp only [h0, ih']
    omega

theorem take_eq_and_drop_prefix_of_prefix_append (pat t b : List Char)
    (h : pat <+: t ++ b) (hlen : t.length ≤ pat.length) :
    t = pat.take t.length ∧ pat.drop t.length <+: b := by
  obtain ⟨r, hr⟩ := h
  constructor
  · have := congrArg (List.take t.length) hr
    rwa [List.take_append_of_le_length hlen, List.take_left, eq_comm] at this
  · have := congrArg (List.drop t.length) hr
    rw [List.drop_append_of_le_length hlen, List.drop_left] at this
    exact ⟨r, this⟩

theorem isPrefixOf_append_cons_eq (pat : List Char) (c : Char)
    (hc : c ∉ pat.tail) (a b : List Char) :
    ∀ i, i < a.length →
      pat.isPrefixOf (a.drop i ++ (c :: b)) = pat.isPrefixOf (a.drop i) := by
  intro i hi
  have htne : a.drop i ≠ [] := by
    apply List.ne_nil_of_length_pos
    simp only [List.length_drop]
    omega
  rw [Bool.eq_iff_iff, List.isPrefixOf_iff_prefix, List.isPrefixOf_iff_prefix]
  constructor
  · intro h
    rcases le_or_lt pat.length (a.drop i).length with hle | hlt
    · exact List.prefix_of_prefix_length_le h (List.prefix_append _ _) hle
    · exfalso
      obtain ⟨-, hdrop⟩ :=
        take_eq_and_drop_prefix_of_prefix_append pat (a.drop i) (c :: b) h hlt.le
      have hne : pat.drop (a.drop i).length ≠ [] := by
        apply List.ne_nil_of_length_pos
        simp only [List.length_drop] at hlt ⊢
        omega
      obtain ⟨d, rest, hd⟩ := List.exists_cons_of_ne_nil hne
      obtain ⟨r2, hr2⟩ := hdrop
      rw [hd, List.cons_append] at hr2
      have hdc : d = c := (List.cons.injEq _ _ _ _ ▸ hr2).1
      have hmem : d ∈ pat.drop (a.drop i).length := by
        rw [hd]; exact List.mem_cons_self _ _
      have hsub : pat.drop (a.drop i).length ⊆ pat.tail := by
        rw [← List.drop_one]
        have h1 : (1 : Nat) + ((a.drop i).length - 1) = (a.drop i).length := by
          have : 0 < (a.drop i).length := List.length_pos.mpr htne
          omega
        rw [show pat.drop (a.drop i).length
              = (pat.drop 1).drop ((a.drop i).length - 1) by rw [List.drop_drop, h1]]
        exact List.drop_subset _ _
      exact hc (hdc ▸ hsub hmem)
  · intro h
    exact h.trans (List.prefix_append _ _)

theorem isPrefixOf_append_eq_of_getLast (pat : List Char) (a : List Char)
    (c : Char) (hlast : a.getLast? = some c) (hc : c ∉ pat.dropLast)
    (b : List Char) :
    ∀ i, i < a.length →
      pat.isPrefixOf (a.drop i ++ b) = pat.isPrefixOf (a.drop i) := by
  intro i hi
  have htne : a.drop i ≠ [] := by
    apply List.ne_nil_of_length_pos
    simp only [List.length_drop]
    omega
  rw [Bool.eq_iff_iff, List.isPrefixOf_iff_prefix, List.isPrefixOf_iff_prefix]
  constructor
  · intro h
    rcases le_or_lt pat.length (a.drop i).length with hle | hlt
    · exact List.prefix_of_prefix_length_le h (List.prefix_append _ _) hle
    · exfalso
      obtain ⟨hteq, -⟩ :=
        take_eq_and_drop_prefix_of_prefix_append pat (a.drop i) b h hlt.le
      have hlast' : (a.drop i).getLast? = some c := by
        conv at hlast => rw [← List.take_append_drop i a]
        rwa [List.getLast?_append_of_ne_nil _ htne] at hlast
      have hcmem : c ∈ a.drop i := List.mem_of_mem_getLast? (by rw [hlast']; rfl)
      have hsub : a.drop i ⊆ pat.dropLast := by
        rw [List.dropLast_eq_take, hteq]
        rw [show pat.take (a.drop i).length
              = (pat.take (pat.length - 1)).take (a.drop i).length by
            rw [List.take_take, min_eq_left (by omega)]]
        exact List.take_subset _ _
      exact hc (hsub hcmem)
  · intro h
    exact h.trans (List.prefix_append _ _)

theorem countOcc_append_of_head (pat : List Char) (hpat : pat ≠ [])
    (a : List Char) (c : Char) (hc : c ∉ pat.tail) (b : List Char) :
    countOcc pat (a ++ c :: b) = countOcc pat a + countOcc pat (c :: b) :=
  countOcc_append pat hpat a (c :: b) (isPrefixOf_append_cons_eq pat c hc a b)

theorem countOcc_append_of_getLast (pat : List Char) (hpat : pat ≠ [])
    (a : List Char) (c : Char) (hlast : a.getLast? = some c)
    (hc : c ∉ pat.dropLast) (b : List Char) :
    countOcc pat (a ++ b) = countOcc pat a + countOcc pat b :=
  countOcc_append pat hpat a b (isPrefixOf_append_eq_of_getLast pat a c hlast hc b)

theorem countOcc_eq_zero_of_not_mem (pat s : List Char) (c : Char)
    (hc : c ∈ pat) (hs : c ∉ s) : countOcc pat s = 0 := by
  induction s with
  | nil =>
    have hne : pat ≠ [] := by rintro rfl; simp at hc
    exact countOcc_nil_of_ne pat hne
  | cons d s ih =>
    have h1 : ¬ pat.isPrefixOf (d :: s) = true := by
      intro h
      exact hs ((List.isPrefixOf_iff_prefix.mp h).subset hc)
    simp [countOcc, h1, ih (fun h => hs (List.mem_cons_of_mem d h))]

/-! ### Upper-casing and integer rendering -/

theorem char_toUpper_idem (c : Char) : c.toUpper.toUpper = c.toUpper := by
  unfold Char.toUpper
  by_cases h : c.toNat ≥ 97 ∧ c.toNat ≤ 122
  · rw [if_pos h]
    have hval : (Char.ofNat (c.toNat - 32)).toNat = c.toNat - 32 := by
      have hv : (c.toNat - 32).isValidChar := by
        constructor
        omega
      rw [Char.ofNat, dif_pos hv]
      rfl
    rw [if_neg]
    rw [hval]
    omega
  · rw [if_neg h, if_neg h]

theorem upperL_append (a b : List Char) :
    upperL (a ++ b) = upperL a ++ upperL b := List.map_append _ a b

theorem upperL_idem (s : List Char) : upperL (upperL s) = upperL s := by
  simp only [upperL, List.map_map]
  exact List.map_congr_left fun c _ => char_toUpper_idem c

/-- The characters Python's decimal rendering of an `int` can use. -/
def digitChars : List Char := ['-', '0', '1', '2', '3', '4', '5', '6', '7', '8', '9']

theorem digitChar_mem_digitChars (m : Nat) (h : m < 10) :
    Nat.digitChar m ∈ digitChars := by
  interval_cases m <;> decide

theorem toDigitsCore_chars (f : Nat) :
    ∀ (n : Nat) (ds : List Char), (∀ c ∈ ds, c ∈ digitChars) →
      ∀ c ∈ Nat.toDigitsCore 10 f n ds, c ∈ digitChars := by
  induction f with
  | zero =>
    intro n ds hds c hc
    simp only [Nat.toDigitsCore] at hc
    exact hds c hc
  | succ f ih =>
    intro n ds hds c hc
    have hstep : ∀ c ∈ Nat.digitChar (n % 10) :: ds, c ∈ digitChars := by
      intro x hx
      rcases List.mem_cons.mp hx with h | h
      · exact h ▸ digitChar_mem_digitChars _ (Nat.mod_lt n (by norm_num))
      · exact hds x h
    by_cases h : n / 10 = 0
    · simp only [Nat.toDigitsCore, h, if_pos] at hc
      exact hstep c (by simpa using hc)
    · simp only [Nat.toDigitsCore, h, if_neg, ite_false] at hc
      exact ih (n / 10) (Nat.digitChar (n % 10) :: ds) hstep c hc

theorem int_toString_chars (l : Int) : ∀ c ∈ (toString l).data, c ∈ digitChars := by
  cases l with
  | ofNat m =>
    intro c hc
    have : (toString (Int.ofNat m)).data = Nat.toDigits 10 m := rfl
    rw [this] at hc
    exact toDigitsCore_chars (m + 1) m [] (by simp) c hc
  | negSucc m =>
    intro c hc
    have : (toString (Int.negSucc m)).data = '-' :: Nat.toDigits 10 (m + 1) := rfl
    rw [this] at hc
    rcases List.mem_cons.mp hc with h | h
    · rw [h]; decide
    · exact toDigitsCore_chars (m + 2) (m + 1) [] (by simp) c h

theorem countOcc_limitTok_toString_int (l : Int) :
    countOcc limitTok (upperL (toString l).data) = 0 := by
  apply countOcc_eq_zero_of_not_mem _ _ 'L' (by decide)
  intro h
  simp only [upperL, List.mem_map] at h
  obtain ⟨c, hc, hcu⟩ := h
  have hmem := int_toString_chars l c hc
  have hne : ∀ c ∈ digitChars, c.toUpper ≠ 'L' := by decide
  exact hne c hmem hcu

/-! ### Occurrences of `LIMIT` in the assembled M-Lab queries

The fixed query pieces all start or end in a quote or a space, and neither
character can continue the token `LIMIT`, so no occurrence can straddle a
boundary between a fixed piece and an interpolated parameter. -/

theorem countOcc_limit_append_last (a b : List Char) (c : Char)
    (hlast : a.getLast? = some c) (hc : c = '\'' ∨ c = ' ') :
    countOcc limitTok (a ++ b) = countOcc limitTok a + countOcc limitTok b := by
  apply countOcc_append_of_getLast limitTok (by decide) a c hlast _ b
  rcases hc with rfl | rfl <;> decide

theorem countOcc_limit_append_head (a b : List Char) (c : Char)
    (hhead : b.head? = some c) (hc : c = '\'' ∨ c = ' ') :
    countOcc limitTok (a ++ b) = countOcc limitTok a + countOcc limitTok b := by
  cases b with
  | nil => simp at hhead
  | cons d b' =>
    have hd : d = c := by simpa using hhead
    subst hd
    apply countOcc_append_of_head limitTok (by decide) a d _ b'
    rcases hc with rfl | rfl <;> decide

theorem countOcc_limit_zero_append_last (a b : List Char) (c : Char)
    (hlast : a.getLast? = some c) (hc : c = '\'' ∨ c = ' ')
    (ha : countOcc limitTok a = 0) (hb : countOcc limitTok b = 0) :
    countOcc limitTok (a ++ b) = 0 := by
  rw [countOcc_limit_append_last a b c hlast hc, ha, hb]

theorem countOcc_limit_zero_append_head (a b : List Char) (c : Char)
    (hhead : b.head? = some c) (hc : c = '\'' ∨ c = ' ')
    (ha : countOcc limitTok a = 0) (hb : countOcc limitTok b = 0) :
    countOcc limitTok (a ++ b) = 0 := by
  rw [countOcc_limit_append_head a b c hhead hc, ha, hb]

/-- Appending an optional chunk (empty, or starting with a space) keeps the
occurrence count at zero. -/
theorem countOcc_limit_append_chunk (X : List Char) (ch : String)
    (hch : countOcc limitTok (upperL ch.data) = 0)
    (hhead : ch = "" ∨ (upperL ch.data).head? = some ' ')
    (hX : countOcc limitTok X = 0) :
    countOcc limitTok (X ++ upperL ch.data) = 0 := by
  rcases hhead with rfl | hh
  · simpa [upperL] using hX
  · rw [countOcc_limit_append_head X _ ' ' hh (Or.inr rfl), hX, hch]

theorem countOcc_ndtDateSection (s e : String)
    (hs : countOcc limitTok (upperL s.data) = 0)
    (he : countOcc limitTok (upperL e.data) = 0) :
    countOcc limitTok (upperL (ndtDateSection s e).data) = 0 := by
  have h1 : countOcc limitTok (upperL ndtSkeleton0.data ++ upperL s.data) = 0 :=
    countOcc_limit_zero_append_last _ _ '\'' (by decide) (Or.inl rfl) (by decide) hs
  have h2 : countOcc limitTok
      ((upperL ndtSkeleton0.data ++ upperL s.data) ++ upperL ndtSkeleton1.data) = 0 :=
    countOcc_limit_zero_append_head _ _ '\'' (by decide) (Or.inl rfl) h1 (by decide)
  have h3 : countOcc limitTok
      (((upperL ndtSkeleton0.data ++ upperL s.data) ++ upperL ndtSkeleton1.data)
        ++ upperL e.data) = 0 :=
    countOcc_limit_zero_append_last _ _ '\''
      (by rw [List.getLast?_append_of_ne_nil _ (by decide)]; decide)
      (Or.inl rfl) h2 he
  have h4 : countOcc limitTok
      ((((upperL ndtSkeleton0.data ++ upperL s.data) ++ upperL ndtSkeleton1.data)
        ++ upperL e.data) ++ upperL ndtSkeleton2.data) = 0 :=
    countOcc_limit_zero_append_head _ _ '\'' (by decide) (Or.inl rfl) h3 (by decide)
  simpa only [ndtDateSection, String.data_append, upperL_append] using h4

theorem countOcc_countryChunk (cc : Option String)
    (hcc : ∀ v, cc = some v → countOcc limitTok (upperL v.data) = 0) :
    countOcc limitTok (upperL (countryChunk cc).data) = 0 := by
  cases cc with
  | none => decide
  | some v =>
    by_cases hv : v.isEmpty
    · simp only [countryChunk, if_pos hv]
      decide
    · have hu : countOcc limitTok (upperL (upperStr v).data) = 0 := by
        rw [show (upperStr v).data = upperL v.data from rfl, upperL_idem]
        exact hcc v rfl
      have h1 : countOcc limitTok
          (upperL countrySqlPre.data ++ upperL (upperStr v).data) = 0 :=
        countOcc_limit_zero_append_last _ _ '\'' (by decide) (Or.inl rfl)
          (by decide) hu
      have h2 : countOcc limitTok
          ((upperL countrySqlPre.data ++ upperL (upperStr v).data)
            ++ upperL ("'" : String).data) = 0 :=
        countOcc_limit_zero_append_head _ _ '\'' (by decide) (Or.inl rfl) h1
          (by decide)
      simp only [countryChunk, if_neg hv]
      simpa only [String.data_append, upperL_append] using h2

theorem countryChunk_head (cc : Option String) :
    countryChunk cc = "" ∨ (upperL (countryChunk cc).data).head? = some ' ' := by
  cases cc with
  | none => exact Or.inl rfl
  | some v =>
    by_cases hv : v.isEmpty
    · exact Or.inl (by simp [countryChunk, hv])
    · right
      simp only [countryChunk, if_neg hv, String.data_append, upperL_append]
      rw [List.head?_append, List.head?_append,
        show (upperL countrySqlPre.data).head? = some ' ' from by decide]
      rfl

theorem countOcc_minSpeedChunk (m : Option String)
    (hm : ∀ v, m = some v → countOcc limitTok (upperL v.data) = 0) :
    countOcc limitTok (upperL (minSpeedChunk m).data) = 0 := by
  cases m with
  | none => decide
  | some v =>
    have h1 : countOcc limitTok (upperL minSpeedPre.data ++ upperL v.data) = 0 :=
      countOcc_limit_zero_append_last _ _ ' ' (by decide) (Or.inr rfl)
        (by decide) (hm v rfl)
    simpa only [minSpeedChunk, String.data_append, upperL_append] using h1

theorem minSpeedChunk_head (m : Option String) :
    minSpeedChunk m = "" ∨ (upperL (minSpeedChunk m).data).head? = some ' ' := by
  cases m with
  | none => exact Or.inl rfl
  | some v =>
    right
    simp only [minSpeedChunk, String.data_append, upperL_append]
    rw [List.head?_append,
      show (upperL minSpeedPre.data).head? = some ' ' from by decide]
    rfl

theorem countOcc_maxSpeedChunk (m : Option String)
    (hm : ∀ v, m = some v → countOcc limitTok (upperL v.data) = 0) :
    countOcc limitTok (upperL (maxSpeedChunk m).data) = 0 := by
  cases m with
  | none => decide
  | some v =>
    have h1 : countOcc limitTok (upperL maxSpeedPre.data ++ upperL v.data) = 0 :=
      countOcc_limit_zero_append_last _ _ ' ' (by decide) (Or.inr rfl)
        (by decide) (hm v rfl)
    simpa only [maxSpeedChunk, String.data_append, upperL_append] using h1

theorem maxSpeedChunk_head (m : Option String) :
    maxSpeedChunk m = "" ∨ (upperL (maxSpeedChunk m).data).head? = some ' ' := by
  cases m with
  | none => exact Or.inl rfl
  | some v =>
    right
    simp only [maxSpeedChunk, String.data_append, upperL_append]
    rw [List.head?_append,
      show (upperL maxSpeedPre.data).head? = some ' ' from by decide]
    rfl

/-- The base NDT query contains no occurrence of `LIMIT` (case-insensitively)
as long as none of the interpolated parameters contains one. -/
theorem countOcc_ndtQueryBase_zero (s e : String) (cc m1 m2 : Option String)
    (hs : countOcc limitTok (upperL s.data) = 0)
    (he : countOcc limitTok (upperL e.data) = 0)
    (hcc : ∀ v, cc = some v → countOcc limitTok (upperL v.data) = 0)
    (hm1 : ∀ v, m1 = some v → countOcc limitTok (upperL v.data) = 0)
    (hm2 : ∀ v, m2 = some v → countOcc limitTok (upperL v.data) = 0) :
    countOcc limitTok (upperL (ndtQueryBase s e cc m1 m2).data) = 0 := by
  have h1 : countOcc limitTok
      (upperL (ndtDateSection s e).data ++ upperL (countryChunk cc).data) = 0 :=
    countOcc_limit_append_chunk _ _ (countOcc_countryChunk cc hcc)
      (countryChunk_head cc) (countOcc_ndtDateSection s e hs he)
  have h2 : countOcc limitTok
      ((upperL (ndtDateSection s e).data ++ upperL (countryChunk cc).data)
        ++ upperL (minSpeedChunk m1).data) = 0 :=
    countOcc_limit_append_chunk _ _ (countOcc_minSpeedChunk m1 hm1)
      (minSpeedChunk_head m1) h1
  have h3 : countOcc limitTok
      (((upperL (ndtDateSection s e).data ++ upperL (countryChunk cc).data)
        ++ upperL (minSpeedChunk m1).data) ++ upperL (maxSpeedChunk m2).data) = 0 :=
    countOcc_limit_append_chunk _ _ (countOcc_maxSpeedChunk m2 hm2)
      (maxSpeedChunk_head m2) h2
  have h4 : countOcc limitTok
      ((((upperL (ndtDateSection s e).data ++ upperL (countryChunk cc).data)
        ++ upperL (minSpeedChunk m1).data) ++ upperL (maxSpeedChunk m2).data)
        ++ upperL orderBySql.data) = 0 :=
    countOcc_limit_zero_append_head _ _ ' ' (by decide) (Or.inr rfl) h3 (by decide)
  simpa only [ndtQueryBase, String.data_append, upperL_append] using h4

/-- When the query contains no occurrence of `LIMIT`, `_execute_query`
appends one, and the submitted text then contains exactly one. -/
theorem countOcc_addLimitClause_one (q : String) (l : Int)
    (hq : countOcc limitTok (upperL q.data) = 0) :
    countOcc limitTok (upperL (addLimitClause q l).data) = 1 := by
  have hcontains : containsSub limitTok (upperL q.data) = false :=
    (containsSub_eq_false_iff _ _).mpr hq
  rw [addLimitClause, if_neg (by simp [hcontains])]
  have hL : countOcc limitTok (upperL q.data ++ upperL (" LIMIT " : String).data)
      = countOcc limitTok (upperL q.data)
        + countOcc limitTok (upperL (" LIMIT " : String).data) :=
    countOcc_limit_append_head _ _ ' ' (by decide) (Or.inr rfl)
  have hgl : (upperL q.data ++ upperL (" LIMIT " : String).data).getLast?
      = some ' ' := by
    rw [List.getLast?_append_of_ne_nil _ (by decide)]
    decide
  have h2 : countOcc limitTok
      ((upperL q.data ++ upperL (" LIMIT " : String).data)
        ++ upperL (toString l).data)
      = countOcc limitTok (upperL q.data ++ upperL (" LIMIT " : String).data)
        + countOcc limitTok (upperL (toString l).data) :=
    countOcc_limit_append_last _ _ ' ' hgl (Or.inr rfl)
  simp only [String.data_append, upperL_append]
  rw [h2, hL, hq, countOcc_limitTok_toString_int l]
  decide

/-! ### Membership in the collected country set -/

theorem mem_foldl_insert (ms : List (Option String)) (init : Finset String)
    (cc : String) :
    cc ∈ ms.foldl
        (fun s m => match m with
          | some c => insert c s
          | none => s) init
      ↔ some cc ∈ ms ∨ cc ∈ init := by
  induction ms generalizing init with
  | nil => simp
  | cons m rest ih =>
    cases m with
    | none =>
      rw [List.foldl_cons]
      simp only [ih]
      simp
    | some c =>
      rw [List.foldl_cons]
      simp only [ih, Finset.mem_insert, List.mem_cons, Option.some.injEq]
      tauto

theorem mem_collect_probe_cc (ms : List (Option String)) (cc : String) :
    cc ∈ collect_probe_cc ms ↔ some cc ∈ ms := by
  simpa using mem_foldl_insert ms ∅ cc

/-! ### The claims -/

/-- C1 (counterexample): the limit sent upstream is NOT the claimed clamp to
`[1,1000]`.  `OONIClient.get_measurements` sends `min(limit, 1000)`, so the
value sent for `limit = 0` is `0`, not `1`; and `MLabClient._execute_query`
appends the caller-supplied limit with no clamping at all, so for
`limit = 2000` the appended clause reads `LIMIT 2000`, not `LIMIT 1000`. -/
theorem limit_clamp_cex :
    List.lookup "limit" (get_measurements_params none none none none 0 0) = some "0"
    ∧ List.lookup "limit" (get_measurements_params none none none none (-5) 0)
        = some "-5"
    ∧ addLimitClause "SELECT a FROM b" 2000 = "SELECT a FROM b LIMIT 2000"
    ∧ ("0" : String) ≠ "1"
    ∧ ("SELECT a FROM b LIMIT 2000" : String) ≠ "SELECT a FROM b LIMIT 1000" := by
  exact ⟨by decide, by decide, by decide, by decide, by decide⟩

/-- C1 (amended): the limit parameter `OONIClient.get_measurements` sends
upstream is exactly `min(limit, 1000)` — equal to `1000` whenever
`limit ≥ 1000` and equal to the caller's limit unchanged whenever
`limit ≤ 1000` (no lower clamp) — and `MLabClient._execute_query` appends
the caller-supplied limit verbatim, with no clamping, whenever the query
does not already contain the token `LIMIT`. -/
theorem limit_sent_amended (test_name probe_cc since until_ : Option String)
    (limit offset : Int) (q : String) (l : Int)
    (hq : containsSub limitTok (upperL q.data) = false) :
    List.lookup "limit"
        (get_measurements_params test_name probe_cc since until_ limit offset)
      = some (toString (min limit 1000))
    ∧ (1000 ≤ limit →
        List.lookup "limit"
            (get_measurements_params test_name probe_cc since until_ limit offset)
          = some "1000")
    ∧ (limit ≤ 1000 →
        List.lookup "limit"
            (get_measurements_params test_name probe_cc since until_ limit offset)
          = some (toString limit))
    ∧ addLimitClause q l = q ++ " LIMIT " ++ toString l := by
  have h1 : List.lookup "limit"
      (get_measurements_params test_name probe_cc since until_ limit offset)
      = some (toString (min limit 1000)) := by
    simp [get_measurements_params, List.lookup]
  refine ⟨h1, ?_, ?_, ?_⟩
  · intro h
    rw [h1, min_eq_right h]
    rfl
  · intro h
    rw [h1, min_eq_left h]
  · rw [addLimitClause, if_neg (by simp [hq])]

/-- C1 (witness): at `limit = 2000` the OONI client sends `1000`, and the
M-Lab client appends the raw limit `7` to a query without one. -/
theorem limit_sent_amended_witness :
    List.lookup "limit" (get_measurements_params none none none none 2000 0)
        = some "1000"
    ∧ addLimitClause "SELECT 1" 7 = "SELECT 1 LIMIT 7" := by
  have h := limit_sent_amended none none none none 2000 0 "SELECT 1" 7 (by decide)
  exact ⟨h.2.1 (by norm_num), h.2.2.2⟩

/-- C2: a measurements request whose limit parameter is not an integer in
`[1,1000]` or whose offset parameter is not a non-negative integer gets a
422 client error, and `OONIClient.get_measurements` is invoked zero times,
so no outbound upstream call occurs. -/
theorem facade_invalid_params_reject (limit offset : QueryParam)
    (client_call : Int → Int → Except String Dict)
    (h : ¬ (limitValid limit ∧ offsetValid offset)) :
    measurements_route client_call limit offset = (.clientError 422, 0) := by
  cases limit with
  | absent =>
    cases offset with
    | absent => exact absurd ⟨trivial, trivial⟩ h
    | invalid => rfl
    | value n =>
      have hn : ¬ (0 ≤ n) := fun hn => h ⟨trivial, hn⟩
      simp [measurements_route, validateLimit, validateOffset, hn]
  | invalid =>
    cases offset <;> simp [measurements_route, validateLimit, validateOffset]
  | value n =>
    by_cases hl : 1 ≤ n ∧ n ≤ 1000
    · cases offset with
      | absent => exact absurd ⟨hl, trivial⟩ h
      | invalid => simp [measurements_route, validateLimit, validateOffset, hl]
      | value m =>
        have hm : ¬ (0 ≤ m) := fun hm => h ⟨hl, hm⟩
        simp [measurements_route, validateLimit, validateOffset, hl, hm]
    · cases offset <;>
        simp [measurements_route, validateLimit, validateOffset, hl]

/-- C2 (witness): `limit = 2000` is rejected with a client error and the
client-call counter stays at zero. -/
theorem facade_invalid_params_reject_witness :
    measurements_route (fun _ _ => .ok []) (.value 2000) .absent
      = (.clientError 422, 0) :=
  facade_invalid_params_reject (.value 2000) .absent (fun _ _ => .ok [])
    (fun hc => absurd hc.1.2 (by norm_num))

/-- C3 (counterexample): the M-Lab fallback country list is NOT identical to
the OONI fallback list — it has 3 entries instead of 10, and its entries use
the keys `country_code`/`country_name` instead of `code`/`name`. -/
theorem mlab_fallback_cex :
    mlab_fallback_countries.length = 3
    ∧ common_countries.length = 10
    ∧ mlab_fallback_countries ≠ common_countries
    ∧ mlab_fallback_countries.map (fun d => d.map Prod.fst)
        = [["country_code", "country_name"], ["country_code", "country_name"],
           ["country_code", "country_name"]]
    ∧ (common_countries.map (fun d => d.map Prod.fst)).head? = some ["code", "name"] := by
  exact ⟨rfl, rfl, by decide, rfl, rfl⟩

/-- C3 (amended): whenever any failure occurs inside
`MLabClient.get_available_countries`, it returns its own fixed static
3-entry fallback list (US, GB, DE with keys `country_code`/`country_name`),
which differs from the 10-entry fallback of `OONIClient.get_countries`. -/
theorem mlab_fallback_amended (run : String → Except String (List Dict))
    (today : Nat) (renderDate : Nat → String) (limit : Int)
    (hfail : ∀ q, ∃ msg, run q = .error msg) :
    get_available_countries run today renderDate limit
      = [[("country_code", "US"), ("country_name", "United States")],
         [("country_code", "GB"), ("country_name", "United Kingdom")],
         [("country_code", "DE"), ("country_name", "Germany")]]
    ∧ get_available_countries run today renderDate limit ≠ common_countries := by
  obtain ⟨msg, hmsg⟩ :=
    hfail (addLimitClause (countriesQuery (renderDate (today - 1)) limit) limit)
  have hres : get_available_countries run today renderDate limit
      = mlab_fallback_countries := by
    simp [get_available_countries, execute_query, hmsg]
  exact ⟨by rw [hres]; rfl, by rw [hres]; decide⟩

/-- C3 (witness): with a warehouse that always fails, the M-Lab fallback is
returned. -/
theorem mlab_fallback_amended_witness :
    get_available_countries (fun _ => .error "no credentials") 1
        (fun _ => "2024-01-01") 100
      = [[("country_code", "US"), ("country_name", "United States")],
         [("country_code", "GB"), ("country_name", "United Kingdom")],
         [("country_code", "DE"), ("country_name", "Germany")]] :=
  (mlab_fallback_amended (fun _ => .error "no credentials") 1
    (fun _ => "2024-01-01") 100 (fun _ => ⟨"no credentials", rfl⟩)).1

/-- C4 (counterexample): `MLabClient.__init__` is NOT total.  The final bare
`bigquery.Client()` fallback stands outside any try, so when the key-file
construction fails and the bare construction also raises (for example a
`DefaultCredentialsError`), `__init__` raises — even though the
default-credentials constructor would have succeeded, showing that fallback
is not attempted after a key-file failure. -/
theorem mlab_init_cex :
    mlabInit
      { envProject := none, envCredentials := none,
        pathExists := fun _ => true,
        fromServiceAccountJson := fun _ _ => .error "bad key file",
        clientWithProject := fun _ => .ok "default-credentials-client",
        clientBare := .error "DefaultCredentialsError" }
      none (some "/key.json")
      = .error "DefaultCredentialsError" := rfl

/-- C4 (amended): construction succeeds without a fallback whenever the
primary construction (key file if the truthy path exists, else default
credentials) succeeds; on any primary failure the single fallback is the
bare client construction, so `__init__` returns a client whenever the bare
construction succeeds and propagates the bare construction's own failure
otherwise. -/
theorem mlab_init_amended (env : MLabEnv) (project_id credentials_path : Option String) :
    (∀ c, mlabPrimary env (pyOr project_id env.envProject)
          (pyOr credentials_path env.envCredentials) = .ok c →
        mlabInit env project_id credentials_path = .ok c)
    ∧ (∀ msg, mlabPrimary env (pyOr project_id env.envProject)
          (pyOr credentials_path env.envCredentials) = .error msg →
        mlabInit env project_id credentials_path = env.clientBare)
    ∧ (∀ c, env.clientBare = .ok c →
        ∃ c', mlabInit env project_id credentials_path = .ok c') := by
  refine ⟨?_, ?_, ?_⟩
  · intro c hc
    simp [mlabInit, hc]
  · intro msg hmsg
    simp [mlabInit, hmsg]
  · intro c hc
    cases hp : mlabPrimary env (pyOr project_id env.envProject)
        (pyOr credentials_path env.envCredentials) with
    | ok c' => exact ⟨c', by simp [mlabInit, hp]⟩
    | error msg => exact ⟨c, by simp [mlabInit, hp, hc]⟩

/-- C4 (witness): when the default-credentials construction fails and the
bare construction succeeds, `__init__` returns the bare client. -/
theorem mlab_init_amended_witness :
    mlabInit
      { envProject := none, envCredentials := none,
        pathExists := fun _ => false,
        fromServiceAccountJson := fun _ _ => .error "unused",
        clientWithProject := fun _ => .error "no default credentials",
        clientBare := .ok "anonymous-client" }
      none none = .ok "anonymous-client" :=
  (mlab_init_amended
    { envProject := none, envCredentials := none,
      pathExists := fun _ => false,
      fromServiceAccountJson := fun _ _ => .error "unused",
      clientWithProject := fun _ => .error "no default credentials",
      clientBare := .ok "anonymous-client" }
    none none).2.1 "no default credentials" rfl

/-- C5: on a successful upstream call whose body has a `"results"` list,
`OONIClient.get_countries` returns exactly the distinct `probe_cc` values
observed, sorted lexicographically with case preserved, truncated to the
first 50, each rendered as a `{code, name}` record with `name` equal to the
code. -/
theorem get_countries_success_spec (ms : List (Option String)) :
    ∃ codes : List String,
      get_countries (.ok ⟨some ms⟩)
          = (codes.take 50).map (fun cc => [("code", cc), ("name", cc)])
        ∧ List.Sorted (· ≤ ·) codes
        ∧ codes.Nodup
        ∧ (∀ cc : String, cc ∈ codes ↔ some cc ∈ ms)
        ∧ (get_countries (.ok ⟨some ms⟩)).length = min 50 codes.length := by
  refine ⟨(collect_probe_cc ms).sort (· ≤ ·), ?_, Finset.sort_sorted _ _,
    Finset.sort_nodup _ _, ?_, ?_⟩
  · simp [get_countries, List.map_take]
  · intro cc
    rw [Finset.mem_sort]
    exact mem_collect_probe_cc ms cc
  · simp [get_countries, List.length_take]

/-- C6: whenever the upstream call inside `OONIClient.get_countries` raises,
the fixed 10-entry static fallback list is returned verbatim, in its
hardcoded order. -/
theorem get_countries_failure_fallback :
    (∀ e : String, get_countries (.error e) = common_countries)
    ∧ common_countries =
      [[("code", "US"), ("name", "United States")],
       [("code", "GB"), ("name", "United Kingdom")],
       [("code", "DE"), ("name", "Germany")],
       [("code", "FR"), ("name", "France")],
       [("code", "CN"), ("name", "China")],
       [("code", "RU"), ("name", "Russia")],
       [("code", "IR"), ("name", "Iran")],
       [("code", "IN"), ("name", "India")],
       [("code", "BR"), ("name", "Brazil")],
       [("code", "JP"), ("name", "Japan")]]
    ∧ common_countries.length = 10 :=
  ⟨fun _ => rfl, rfl, rfl⟩

/-- C9: `OONIClient.get_test_names` returns the same fixed 15-entry catalog
whatever the probe request's outcome; the probe never influences the
returned value. -/
theorem get_test_names_static :
    (∀ r : Except String Unit, get_test_names r = common_tests)
    ∧ common_tests.length = 15
    ∧ (∀ r₁ r₂ : Except String Unit, get_test_names r₁ = get_test_names r₂) := by
  refine ⟨fun r => ?_, rfl, fun r₁ r₂ => ?_⟩
  · cases r <;> rfl
  · cases r₁ <;> cases r₂ <;> rfl

/-- C10: on a successful fetch whose body has a `"results"` key,
measurements without a `probe_cc` field are skipped: an empty results list,
or one with no `probe_cc` anywhere, yields the empty list, not the
fallback; the fallback is returned exactly when the fetch raises or the
`"results"` key is absent. -/
theorem get_countries_empty_results :
    get_countries (.ok ⟨some []⟩) = []
    ∧ (∀ ms : List (Option String), (∀ m ∈ ms, m = none) →
        get_countries (.ok ⟨some ms⟩) = [])
    ∧ (∀ e : String, get_countries (.error e) = common_countries)
    ∧ get_countries (.ok ⟨none⟩) = common_countries := by
  refine ⟨?_, ?_, fun _ => rfl, rfl⟩
  · simp [get_countries, collect_probe_cc, Finset.sort_empty]
  · intro ms h
    have hempty : collect_probe_cc ms = ∅ := by
      rw [Finset.eq_empty_iff_forall_not_mem]
      intro cc hcc
      have hmem := (mem_collect_probe_cc ms cc).mp hcc
      have := h _ hmem
      simp at this
    simp [get_countries, hempty, Finset.sort_empty]

/-- C10 (witness): a results list whose measurements all lack `probe_cc`
yields the empty list. -/
theorem get_countries_empty_results_witness :
    get_countries (.ok ⟨some [none, none]⟩) = [] :=
  get_countries_empty_results.2.1 [none, none] (by simp)

/-- C7 (counterexample): the assembled NDT query does NOT always contain
exactly one `LIMIT` occurrence.  Calling `get_ndt_measurements` with
`start_date = "LIMIT"` (and `end_date` defaulting to it) interpolates the
token twice into the query text, `_execute_query` therefore appends
nothing, and the submitted text contains two case-insensitive occurrences
of `LIMIT` — and no appended limit clause at all. -/
theorem limit_clause_cex :
    containsSub limitTok
        (upperL (ndtQueryBase (resolveDates "2024-01-01" (some "LIMIT") none).1
          (resolveDates "2024-01-01" (some "LIMIT") none).2 none none none).data)
      = true
    ∧ countOcc limitTok
        (upperL (addLimitClause
          (ndtQueryBase (resolveDates "2024-01-01" (some "LIMIT") none).1
            (resolveDates "2024-01-01" (some "LIMIT") none).2 none none none)
          100).data)
      = 2
    ∧ (2 : Nat) ≠ 1 :=
  ⟨by decide, by decide, by decide⟩

/-- C7 (amended): `_execute_query` appends a `LIMIT` clause if and only if
the upper-cased query text does not already contain the token `LIMIT`; and
the query `get_ndt_measurements` submits contains exactly one
case-insensitive occurrence of `LIMIT` provided no interpolated parameter
(resolved start date, resolved end date, country code, rendered speed
bounds) contains the substring `limit` case-insensitively. -/
theorem limit_clause_amended :
    (∀ (q : String) (l : Int),
      (containsSub limitTok (upperL q.data) = true → addLimitClause q l = q)
      ∧ (containsSub limitTok (upperL q.data) = false →
          addLimitClause q l = q ++ " LIMIT " ++ toString l
          ∧ countOcc limitTok (upperL (addLimitClause q l).data) = 1))
    ∧ (∀ (today : Nat) (renderDate : Nat → String)
        (start_date end_date country_code m1 m2 : Option String) (l : Int),
        countOcc limitTok (upperL
          (resolveDates (renderDate (today - 1)) start_date end_date).1.data) = 0 →
        countOcc limitTok (upperL
          (resolveDates (renderDate (today - 1)) start_date end_date).2.data) = 0 →
        (∀ v, country_code = some v → countOcc limitTok (upperL v.data) = 0) →
        (∀ v, m1 = some v → countOcc limitTok (upperL v.data) = 0) →
        (∀ v, m2 = some v → countOcc limitTok (upperL v.data) = 0) →
        countOcc limitTok (upperL (addLimitClause
          (ndtQueryBase (resolveDates (renderDate (today - 1)) start_date end_date).1
            (resolveDates (renderDate (today - 1)) start_date end_date).2
            country_code m1 m2) l).data) = 1) := by
  constructor
  · intro q l
    constructor
    · intro h
      rw [addLimitClause, if_pos (by simp [h])]
    · intro h
      refine ⟨by rw [addLimitClause, if_neg (by simp [h])], ?_⟩
      exact countOcc_addLimitClause_one q l ((containsSub_eq_false_iff _ _).mp h)
  · intro today renderDate start_date end_date country_code m1 m2 l hs he hcc hm1 hm2
    exact countOcc_addLimitClause_one _ l
      (countOcc_ndtQueryBase_zero _ _ country_code m1 m2 hs he hcc hm1 hm2)

/-- C7 (witness): a fully concrete call — dates defaulted from the clock,
country `US`, both speed bounds — submits a query with exactly one `LIMIT`
occurrence. -/
theorem limit_clause_amended_witness :
    countOcc limitTok (upperL (addLimitClause
      (ndtQueryBase (resolveDates "2024-01-01" none none).1
        (resolveDates "2024-01-01" none none).2
        (some "US") (some "1.5") (some "100.0")) 100).data) = 1 :=
  limit_clause_amended.2 1 (fun _ => "2024-01-01") none none
    (some "US") (some "1.5") (some "100.0") 100
    (by decide) (by decide)
    (by intro v hv; cases hv; decide)
    (by intro v hv; cases hv; decide)
    (by intro v hv; cases hv; decide)

/-- C8: in `get_ndt_measurements` and `get_statistics`, an absent start date
resolves to the rendering of the day before the call-time date, an absent
end date resolves to the resolved start date (so with both absent, both are
yesterday), the NDT result's `date_range` carries the resolved values, and
the statistics query is built from the resolved values. -/
theorem date_defaulting (today : Nat) (renderDate : Nat → String)
    (start_date end_date : Option String) :
    resolveDates (renderDate (today - 1)) none none
        = (renderDate (today - 1), renderDate (today - 1))
    ∧ (resolveDates (renderDate (today - 1)) none end_date).1 = renderDate (today - 1)
    ∧ (resolveDates (renderDate (today - 1)) start_date none).2
        = (resolveDates (renderDate (today - 1)) start_date none).1
    ∧ (∀ run country_code m1 m2 limit r,
        get_ndt_measurements run today renderDate start_date end_date
            country_code m1 m2 limit = .ok r →
        r.date_range = resolveDates (renderDate (today - 1)) start_date end_date)
    ∧ (∀ country_code,
        get_statistics (fun q => .ok [[("query", q)]]) today renderDate
            none none country_code
          = .ok [("query",
              addLimitClause
                (statsQueryBase (renderDate (today - 1)) (renderDate (today - 1))
                  country_code) 1)]) := by
  refine ⟨rfl, ?_, ?_, ?_, fun country_code => rfl⟩
  · cases end_date <;> rfl
  · cases start_date <;> rfl
  · intro run country_code m1 m2 limit r h
    simp only [get_ndt_measurements] at h
    split at h
    · simp only [Except.ok.injEq] at h
      rw [← h]
    · simp at h

/-- C8 (witness): with both dates omitted, the returned NDT `date_range` is
(yesterday, yesterday). -/
theorem date_defaulting_witness :
    (resolveDates ((fun _ : Nat => "2024-05-05") (3 - 1)) none none)
      = ("2024-05-05", "2024-05-05") :=
  (date_defaulting 3 (fun _ => "2024-05-05") none none).1

end OoniProject
